import Mathlib

/-!
# grading-report: verdict computation and report store

A shallow embedding of `src/main.go`: the `POST /report` handler (binding,
counting of "OK" ratings, verdict, insert) and the `GET /report/:user`
handler (select by user, scan loop, 404 / 500 / 200 outcomes).

Go strings that reach the handlers come from a JSON body or a URL path
segment and are modelled by `String`. The bytes `'.'` and `'/'` that
`path.Ext` looks for are ASCII, so scanning bytes and scanning code points
find the same positions.
-/

namespace GradingReport

/-! ## Scoring evaluator -/

/-- Loop of Go's standard library `path.Ext`:
`for i := len(path) - 1; i >= 0 && path[i] != '/'; i-- { if path[i] == '.' { return path[i:] } }; return ""`.
The first argument is `path[0..i]` read from its last element backwards, the
second is `path[i+1:]`. -/
def extLoop : List Char → List Char → List Char
  | [], _ => []
  | c :: before, after =>
    if c = '/' then []
    else if c = '.' then c :: after
    else extLoop before (c :: after)

/-- Go's standard library `path.Ext`, called at `main.go:80`: the suffix of the
final slash-separated element of `path` beginning at its last dot, the dot
included; the empty string when that element has no dot. -/
def Ext (path : String) : String :=
  ⟨extLoop path.data.reverse []⟩

/-- The loop of `main.go:78-83`: `totalOK := 0; for _, rating := range ratings
{ if path.Ext(rating) == "OK" { totalOK++ } }`. -/
def countOK (ratings : List String) : Nat :=
  ratings.foldl (fun totalOK rating => if Ext rating = "OK" then totalOK + 1 else totalOK) 0

/-- Verdict of `main.go:88-91`: `result := "FAIL"; if totalOK >= 6 { result = "PASS" }`. -/
def verdict (totalOK : Nat) : String :=
  if totalOK ≥ 6 then "PASS" else "FAIL"

/-- The anonymous struct bound from the JSON body, `main.go:51-61`. -/
structure Report where
  User : String
  Project : String
  NewReliabilityRating : String
  NewSecurityRating : String
  NewMaintainabilityRating : String
  Bugs : String
  CodeSmells : String
  CriticalViolations : String
  UncoveredLines : String
  deriving DecidableEq, Repr

/-- The slice `ratings` of `main.go:69-76`. -/
def ratings (report : Report) : List String :=
  [report.NewReliabilityRating, report.NewSecurityRating, report.NewMaintainabilityRating,
   report.Bugs, report.CodeSmells, report.CriticalViolations]

/-- The value of `totalOK` after the loop, for a bound report. -/
def totalOK (report : Report) : Nat :=
  countOK (ratings report)

/-- The value of `result` at `main.go:91`, for a bound report. -/
def result (report : Report) : String :=
  verdict (totalOK report)

/-! ## Report store -/

/-- One row of the table `reports` created at `main.go:31-44`. -/
structure Row where
  id : Nat
  user : String
  project : String
  new_reliability_rating : String
  new_security_rating : String
  new_maintainability_rating : String
  bugs : String
  code_smells : String
  critical_violations : String
  uncovered_lines : String
  result : String
  deriving DecidableEq, Repr

/-- The table `reports`: its rows in rowid order, which is the order of a
table scan, and the largest id handed out so far (`AUTOINCREMENT`). -/
structure DB where
  rows : List Row
  seq : Nat
  deriving DecidableEq, Repr

/-- The table right after `CREATE TABLE IF NOT EXISTS` on a fresh database file. -/
def emptyDB : DB :=
  { rows := [], seq := 0 }

/-- What a handler writes to the client. -/
inductive Response where
  | json (status : Nat) (error : String)
  | string (status : Nat) (body : String)
  | data (status : Nat) (contentType : String) (body : String)
  deriving DecidableEq, Repr

/-- What the surroundings of one `POST /report` call decide: the result of
`c.BindJSON`, and whether `db.Prepare` or `stmt.Exec` report an error. -/
structure PostEnv where
  bind : Except String Report
  prepareErr : Option String
  execErr : Option String

/-- The effect of one `POST /report` call: the table afterwards, the values
passed to `fmt.Println`, and the response. -/
structure PostOutcome where
  db : DB
  printed : List Nat
  response : Response
  deriving DecidableEq, Repr

/-- The row that `stmt.Exec` of `main.go:104-108` writes: the nine bound fields
and `result`, under the id the table assigns. -/
def rowOf (id : Nat) (report : Report) (result : String) : Row :=
  { id := id,
    user := report.User,
    project := report.Project,
    new_reliability_rating := report.NewReliabilityRating,
    new_security_rating := report.NewSecurityRating,
    new_maintainability_rating := report.NewMaintainabilityRating,
    bugs := report.Bugs,
    code_smells := report.CodeSmells,
    critical_violations := report.CriticalViolations,
    uncovered_lines := report.UncoveredLines,
    result := result }

/-- The largest id among the stored rows, 0 for the empty table. -/
def maxId (rows : List Row) : Nat :=
  rows.foldr (fun row m => max row.id m) 0

/-- The id `INTEGER PRIMARY KEY AUTOINCREMENT` gives a new row: one more than
the largest id the table has ever held. -/
def nextId (db : DB) : Nat :=
  max db.seq (maxId db.rows) + 1

/-- The `INSERT` of `main.go:94-108`: one new row under the next id. That id is
larger than every stored one, so the row comes last in rowid order. -/
def insertReport (db : DB) (report : Report) (result : String) : DB :=
  { rows := db.rows ++ [rowOf (nextId db) report result],
    seq := nextId db }

/-- The `POST /report` handler, `main.go:50-115`. -/
def postReport (db : DB) (env : PostEnv) : PostOutcome :=
  match env.bind with
  | .error err => { db := db, printed := [], response := .json 400 err }
  | .ok report =>
    let ratings := ratings report
    let totalOK := countOK ratings
    let result := verdict totalOK
    match env.prepareErr with
    | some err => { db := db, printed := [totalOK], response := .json 500 err }
    | none =>
      match env.execErr with
      | some err => { db := db, printed := [totalOK], response := .json 500 err }
      | none =>
        { db := insertReport db report result, printed := [totalOK],
          response := .string 200 "Report saved successfully!" }

/-- One element of the slice `reports` of the `GET` handler, `main.go:136-146`:
the map with its nine keys. -/
structure ReportMap where
  project : String
  new_reliability_rating : String
  new_security_rating : String
  new_maintainability_rating : String
  bugs : String
  code_smells : String
  critical_violations : String
  uncovered_lines : String
  result : String
  deriving DecidableEq, Repr

/-- What the surroundings of one `GET /report/:user` call decide: whether
`db.Query` reports an error, whether `rows.Next` stops on an error after
delivering some rows (`none`: it stops only at the end of the result set), and
whether `rows.Scan` reports an error on a given row. -/
structure GetEnv where
  queryErr : Option String
  nextFail : Option Nat
  scanErr : Row → Option String

/-- The rows the query of `main.go:121` ranges over: `WHERE user = ?`, in table order. -/
def selectRows (db : DB) (user : String) : List Row :=
  db.rows.filter (fun row => row.user = user)

/-- The rows for which `rows.Next()` returns true, `main.go:129`. In Go's
`database/sql`, `Next` returns false when there is no next row and also when
an error happened while preparing it; `rows.Err()` tells the two apart, and
the handler does not call it. -/
def delivered (nextFail : Option Nat) (rows : List Row) : List Row :=
  match nextFail with
  | none => rows
  | some n => rows.take n

/-- The nine selected columns of a row, as scanned and stored in the map. -/
def scanRow (row : Row) : ReportMap :=
  { project := row.project,
    new_reliability_rating := row.new_reliability_rating,
    new_security_rating := row.new_security_rating,
    new_maintainability_rating := row.new_maintainability_rating,
    bugs := row.bugs,
    code_smells := row.code_smells,
    critical_violations := row.critical_violations,
    uncovered_lines := row.uncovered_lines,
    result := row.result }

/-- The loop `for rows.Next()` of `main.go:129-147`: appends one map per row to
`reports`, and stops with the error of the first failing `rows.Scan`. -/
def scanLoop (scanErr : Row → Option String) : List Row → List ReportMap → Except String (List ReportMap)
  | [], reports => .ok reports
  | row :: rest, reports =>
    match scanErr row with
    | some err => .error err
    | none => scanLoop scanErr rest (reports ++ [scanRow row])

/-- The slice `reports` at `main.go:149`, or the error that ended the handler before. -/
def listReports (db : DB) (user : String) (env : GetEnv) : Except String (List ReportMap) :=
  match env.queryErr with
  | some err => .error err
  | none => scanLoop env.scanErr (delivered env.nextFail (selectRows db user)) []

/-- The markup before the table rows, `main.go:154-178`. -/
def htmlHead (user : String) : String :=
  "\n" ++
  "        <html>\n" ++
  "          <head>\n" ++
  "            <title>Report for " ++ user ++
  "</title>\n" ++
  "            <link href=\"https://cdn.jsdelivr.net/npm/tailwindcss@2.2.19/dist/tailwind.min.css\" rel=\"stylesheet\">\n" ++
  "          </head>\n" ++
  "          <body>\n" ++
  "            <div class=\"container mx-auto\">\n" ++
  "              <h2 class=\"text-2xl mb-4\">Report for " ++ user ++
  "</h2>\n" ++
  "              <table class=\"table-auto w-full\">\n" ++
  "                <thead>\n" ++
  "                  <tr>\n" ++
  "                    <th class=\"px-4 py-2\">Project</th>\n" ++
  "                    <th class=\"px-4 py-2\">New Reliability Rating</th>\n" ++
  "                    <th class=\"px-4 py-2\">New Security Rating</th>\n" ++
  "                    <th class=\"px-4 py-2\">New Maintainability Rating</th>\n" ++
  "                    <th class=\"px-4 py-2\">Bugs</th>\n" ++
  "                    <th class=\"px-4 py-2\">Code Smells</th>\n" ++
  "                    <th class=\"px-4 py-2\">Critical Violations</th>\n" ++
  "                    <th class=\"px-4 py-2\">Uncovered Lines</th>\n" ++
  "                    <th class=\"px-4 py-2\">Result</th>\n" ++
  "                  </tr>\n" ++
  "                </thead>\n" ++
  "                <tbody>\n" ++
  "        "

/-- The markup of one table row, `main.go:180-192`. -/
def htmlRow (report : ReportMap) : String :=
  "\n" ++
  "            <tr>\n" ++
  "              <td class=\"border px-4 py-2\">" ++ report.project ++
  "</td>\n" ++
  "              <td class=\"border px-4 py-2\">" ++ report.new_reliability_rating ++
  "</td>\n" ++
  "              <td class=\"border px-4 py-2\">" ++ report.new_security_rating ++
  "</td>\n" ++
  "              <td class=\"border px-4 py-2\">" ++ report.new_maintainability_rating ++
  "</td>\n" ++
  "              <td class=\"border px-4 py-2\">" ++ report.bugs ++
  "</td>\n" ++
  "              <td class=\"border px-4 py-2\">" ++ report.code_smells ++
  "</td>\n" ++
  "              <td class=\"border px-4 py-2\">" ++ report.critical_violations ++
  "</td>\n" ++
  "              <td class=\"border px-4 py-2\">" ++ report.uncovered_lines ++
  "</td>\n" ++
  "              <td class=\"border px-4 py-2\">" ++ report.result ++
  "</td>\n" ++
  "            </tr>\n" ++
  "            "

/-- The markup after the table rows, `main.go:194-200`. -/
def htmlTail : String :=
  "\n" ++
  "                </tbody>\n" ++
  "              </table>\n" ++
  "            </div>\n" ++
  "          </body>\n" ++
  "        </html>\n" ++
  "        "

/-- The page built at `main.go:154-200`: `html += ...` once per element of `reports`. -/
def renderHtml (user : String) (reports : List ReportMap) : String :=
  reports.foldl (fun html report => html ++ htmlRow report) (htmlHead user) ++ htmlTail

/-- The `GET /report/:user` handler, `main.go:118-202`. -/
def getReport (db : DB) (user : String) (env : GetEnv) : Response :=
  match listReports db user env with
  | .error err => .json 500 err
  | .ok reports =>
    if reports.length = 0 then
      .string 404 ("No reports found for user " ++ user)
    else
      .data 200 "text/html; charset=utf-8" (renderHtml user reports)

/-- The surroundings in which none of `db.Query`, `rows.Next` and `rows.Scan` fails. -/
def noFault : GetEnv :=
  { queryErr := none, nextFail := none, scanErr := fun _ => none }

/-- The surroundings in which `db.Query` succeeds and the first `rows.Next()`
stops on an error, as when the database file is locked by a writer. -/
def firstNextFails : GetEnv :=
  { queryErr := none, nextFail := some 0, scanErr := fun _ => none }

/-- The surroundings of a `POST /report` call that binds `report` and stores it. -/
def okPost (report : Report) : PostEnv :=
  { bind := .ok report, prepareErr := none, execErr := none }

/-- The table after a sequence of `POST /report` calls. -/
def submitAll (db : DB) (envs : List PostEnv) : DB :=
  envs.foldl (fun db env => (postReport db env).db) db

/-- The status code of a response. -/
def Response.status : Response → Nat
  | .json status _ => status
  | .string status _ => status
  | .data status _ _ => status

/-- The map the listing holds for a stored report: its eight echoed fields and
the stored `result`. -/
def echoOf (report : Report) (result : String) : ReportMap :=
  { project := report.Project,
    new_reliability_rating := report.NewReliabilityRating,
    new_security_rating := report.NewSecurityRating,
    new_maintainability_rating := report.NewMaintainabilityRating,
    bugs := report.Bugs,
    code_smells := report.CodeSmells,
    critical_violations := report.CriticalViolations,
    uncovered_lines := report.UncoveredLines,
    result := result }

/-- A report with the given user, project and uncovered lines whose six scored
fields all hold `value`. -/
def uniformReport (user project value uncovered : String) : Report :=
  { User := user, Project := project,
    NewReliabilityRating := value, NewSecurityRating := value,
    NewMaintainabilityRating := value, Bugs := value, CodeSmells := value,
    CriticalViolations := value, UncoveredLines := uncovered }

/-- A report of user "alice" used in the examples. -/
def aliceReport : Report :=
  uniformReport "alice" "p1" "OK" "3%"

/-- A report of user "bob" used in the examples. -/
def bobReport : Report :=
  { User := "bob", Project := "p2", NewReliabilityRating := "a.OK",
    NewSecurityRating := "OK", NewMaintainabilityRating := "WARN", Bugs := "0",
    CodeSmells := "x/y.OK", CriticalViolations := "", UncoveredLines := "12" }

/-! ## The evaluator -/

theorem extLoop_nil_or_dot (before : List Char) :
    ∀ after, extLoop before after = [] ∨ ∃ t, extLoop before after = '.' :: t := by
  induction before with
  | nil => intro after; exact Or.inl rfl
  | cons c before ih =>
    intro after
    unfold extLoop
    by_cases h1 : c = '/'
    · simp [h1]
    · by_cases h2 : c = '.'
      · subst h2
        exact Or.inr ⟨after, by simp⟩
      · simp only [h1, h2, if_false]
        exact ih (c :: after)

theorem Ext_empty_or_dot (path : String) :
    Ext path = "" ∨ ∃ t, Ext path = ⟨'.' :: t⟩ := by
  unfold Ext
  rcases extLoop_nil_or_dot path.data.reverse [] with h | ⟨t, h⟩
  · left; rw [h]
  · right; exact ⟨t, by rw [h]⟩

theorem Ext_ne_OK (path : String) : Ext path ≠ "OK" := by
  rcases Ext_empty_or_dot path with h | ⟨t, h⟩
  · rw [h]; decide
  · rw [h]
    intro hc
    have hd : '.' :: t = ['O', 'K'] := congrArg String.data hc
    exact absurd (List.cons.inj hd).1 (by decide)

theorem foldl_count_eq (ratings : List String) :
    ∀ n, ratings.foldl (fun totalOK rating => if Ext rating = "OK" then totalOK + 1 else totalOK) n
      = n + ratings.countP (fun rating => decide (Ext rating = "OK")) := by
  induction ratings with
  | nil => intro n; simp
  | cons r rs ih =>
    intro n
    rw [List.foldl_cons, ih, List.countP_cons]
    by_cases h : Ext r = "OK"
    · simp [h]; omega
    · simp [h]

theorem countOK_eq_countP (ratings : List String) :
    countOK ratings = ratings.countP (fun rating => decide (Ext rating = "OK")) := by
  unfold countOK
  rw [foldl_count_eq]
  simp

theorem countOK_le_length (ratings : List String) : countOK ratings ≤ ratings.length := by
  rw [countOK_eq_countP]
  exact List.countP_le_length _

theorem countOK_eq_length_iff (ratings : List String) :
    countOK ratings = ratings.length ↔ ∀ rating ∈ ratings, Ext rating = "OK" := by
  rw [countOK_eq_countP, List.countP_eq_length]
  simp

theorem verdict_pass_iff (totalOK : Nat) : verdict totalOK = "PASS" ↔ totalOK ≥ 6 := by
  unfold verdict
  by_cases h : totalOK ≥ 6
  · simp [h]
  · simp only [h, if_false, iff_false]
    decide

theorem verdict_fail_iff (totalOK : Nat) : verdict totalOK = "FAIL" ↔ ¬ totalOK ≥ 6 := by
  unfold verdict
  by_cases h : totalOK ≥ 6
  · simp only [h, if_true, not_true_eq_false, iff_false]
    decide
  · simp [h]

theorem ratings_length (report : Report) : (ratings report).length = 6 := rfl

theorem verdict_countP_six (ok : String → Bool) (six : List String) (h : six.length = 6) :
    (verdict (six.countP ok) = "PASS" ↔ ∀ rating ∈ six, ok rating = true) ∧
    (verdict (six.countP ok) = "FAIL" ↔ ∃ rating ∈ six, ok rating = false) := by
  have hle : six.countP ok ≤ six.length := List.countP_le_length ok
  have hall : six.countP ok = six.length ↔ ∀ rating ∈ six, ok rating = true :=
    List.countP_eq_length
  have hpass : verdict (six.countP ok) = "PASS" ↔ ∀ rating ∈ six, ok rating = true := by
    rw [verdict_pass_iff, ← hall, h]
    omega
  refine ⟨hpass, ?_⟩
  have hfail : verdict (six.countP ok) = "FAIL" ↔ ¬ verdict (six.countP ok) = "PASS" := by
    rw [verdict_fail_iff, verdict_pass_iff]
  rw [hfail, hpass]
  push_neg
  simp

/-- C1: the verdict of the `POST /report` handler is "PASS" exactly when each of
the six scored fields satisfies `path.Ext(field) == "OK"`, and it is "FAIL"
exactly when at least one of them does not. The verdict is `verdict` of
`totalOK`; `totalOK` is the number of entries of `ratings`, the six scored
fields, that satisfy the test; `verdict` is "PASS" from 6 on and "FAIL" below,
so at 5 it is "FAIL"; and for any test on strings and any six values the
verdict of the count is "PASS" exactly when all six pass the test and "FAIL"
exactly when one does not. -/
theorem C1_pass_iff_all_six_ok (report : Report) :
    (result report = "PASS" ↔ ∀ rating ∈ ratings report, Ext rating = "OK") ∧
    (result report = "FAIL" ↔ ∃ rating ∈ ratings report, Ext rating ≠ "OK") ∧
    (∀ (ok : String → Bool) (six : List String), six.length = 6 →
      (verdict (six.countP ok) = "PASS" ↔ ∀ rating ∈ six, ok rating = true) ∧
      (verdict (six.countP ok) = "FAIL" ↔ ∃ rating ∈ six, ok rating = false)) ∧
    (postReport emptyDB (okPost report)).db.rows =
      [rowOf 1 report (verdict (countOK (ratings report)))] ∧
    result report = verdict (totalOK report) ∧
    ratings report = [report.NewReliabilityRating, report.NewSecurityRating,
      report.NewMaintainabilityRating, report.Bugs, report.CodeSmells,
      report.CriticalViolations] ∧
    (∀ values : List String,
      countOK values = values.countP (fun rating => decide (Ext rating = "OK"))) ∧
    (∀ n : Nat, (verdict n = "PASS" ↔ 6 ≤ n) ∧ (verdict n = "FAIL" ↔ n < 6)) ∧
    verdict 5 = "FAIL" ∧ verdict 6 = "PASS" := by
  have hgen := verdict_countP_six (fun rating => decide (Ext rating = "OK")) (ratings report)
    (ratings_length report)
  have hres : result report =
      verdict ((ratings report).countP (fun rating => decide (Ext rating = "OK"))) := by
    unfold result totalOK
    rw [countOK_eq_countP]
  refine ⟨?_, ?_, verdict_countP_six, rfl, rfl, rfl, countOK_eq_countP, ?_, by decide,
    by decide⟩
  · rw [hres, hgen.1]
    simp
  · rw [hres, hgen.2]
    simp
  · intro n
    refine ⟨verdict_pass_iff n, ?_⟩
    rw [verdict_fail_iff]
    omega

theorem C1_pass_iff_all_six_ok_witness :
    (verdict (["OK", "OK", "OK", "OK", "OK", "OK"].countP (fun rating => rating == "OK"))
      = "PASS") ∧
    (verdict (["OK", "OK", "OK", "WARN", "OK", "OK"].countP (fun rating => rating == "OK"))
      = "FAIL") :=
  ⟨((C1_pass_iff_all_six_ok aliceReport).2.2.1
      (fun rating => rating == "OK") ["OK", "OK", "OK", "OK", "OK", "OK"] rfl).1.mpr
      (by decide),
   ((C1_pass_iff_all_six_ok aliceReport).2.2.1
      (fun rating => rating == "OK") ["OK", "OK", "OK", "WARN", "OK", "OK"] rfl).2.mpr
      ⟨"WARN", by decide, by decide⟩⟩

/-- C2: two reports that agree on the six scored fields get the same verdict,
whatever their user, project and uncovered lines are. -/
theorem C2_uncovered_lines_never_scored (r1 r2 : Report)
    (h1 : r1.NewReliabilityRating = r2.NewReliabilityRating)
    (h2 : r1.NewSecurityRating = r2.NewSecurityRating)
    (h3 : r1.NewMaintainabilityRating = r2.NewMaintainabilityRating)
    (h4 : r1.Bugs = r2.Bugs)
    (h5 : r1.CodeSmells = r2.CodeSmells)
    (h6 : r1.CriticalViolations = r2.CriticalViolations) :
    result r1 = result r2 := by
  unfold result totalOK ratings
  rw [h1, h2, h3, h4, h5, h6]

theorem C2_uncovered_lines_never_scored_witness :
    result (uniformReport "alice" "p1" "OK" "3%") = result (uniformReport "bob" "p2" "OK" "97%") :=
  C2_uncovered_lines_never_scored (uniformReport "alice" "p1" "OK" "3%")
    (uniformReport "bob" "p2" "OK" "97%") rfl rfl rfl rfl rfl rfl

/-- C7: the field value "OK" does not satisfy `path.Ext(field) == "OK"`, and a
report whose six scored fields are all "OK" gets the verdict "FAIL". -/
theorem C7_literal_OK_fails (user project uncovered : String) :
    Ext "OK" = "" ∧ Ext "OK" ≠ "OK" ∧
    totalOK (uniformReport user project "OK" uncovered) = 0 ∧
    result (uniformReport user project "OK" uncovered) = "FAIL" := by
  refine ⟨by decide, by decide, ?_, ?_⟩
  · show countOK ["OK", "OK", "OK", "OK", "OK", "OK"] = 0
    decide
  · show verdict (countOK ["OK", "OK", "OK", "OK", "OK", "OK"]) = "FAIL"
    decide

/-- C8, the code at the failing input: `path.Ext("something.OK")` is ".OK", dot
included, which is not "OK"; a report whose six scored fields are all
"something.OK" gets the verdict "FAIL". -/
theorem C8_dot_OK_suffix_fails :
    Ext "something.OK" = ".OK" ∧ Ext "something.OK" ≠ "OK" ∧
    result (uniformReport "alice" "p1" "something.OK" "3%") = "FAIL" := by
  decide

/-- C10: `path.Ext` returns the empty string or a string that begins with a dot;
so for every report `totalOK` is 0 and the verdict is "FAIL". -/
theorem C10_verdict_always_fail (report : Report) :
    (∀ path, Ext path = "" ∨ ∃ t, Ext path = ⟨'.' :: t⟩) ∧
    totalOK report = 0 ∧ result report = "FAIL" := by
  have h0 : totalOK report = 0 := by
    unfold totalOK
    rw [countOK_eq_countP, List.countP_eq_zero]
    intro rating _
    simp [Ext_ne_OK]
  refine ⟨Ext_empty_or_dot, h0, ?_⟩
  unfold result
  rw [h0]
  decide

/-! ## The store -/

theorem scanRow_rowOf (id : Nat) (report : Report) (result : String) :
    scanRow (rowOf id report result) = echoOf report result := rfl

theorem scanLoop_spec (scanErr : Row → Option String) (rows : List Row) :
    ∀ reports,
      (∃ row ∈ rows, ∃ err, scanErr row = some err ∧
          scanLoop scanErr rows reports = .error err) ∨
      ((∀ row ∈ rows, scanErr row = none) ∧
          scanLoop scanErr rows reports = .ok (reports ++ rows.map scanRow)) := by
  induction rows with
  | nil => intro reports; right; simp [scanLoop]
  | cons row rest ih =>
    intro reports
    cases hrow : scanErr row with
    | some err =>
      left
      exact ⟨row, List.mem_cons_self _ _, err, hrow, by simp [scanLoop, hrow]⟩
    | none =>
      rcases ih (reports ++ [scanRow row]) with ⟨r, hr, err, herr, hloop⟩ | ⟨hall, hloop⟩
      · left
        exact ⟨r, List.mem_cons_of_mem _ hr, err, herr, by simp [scanLoop, hrow, hloop]⟩
      · right
        refine ⟨?_, by simp [scanLoop, hrow, hloop]⟩
        intro r hr
        rcases List.mem_cons.mp hr with h | h
        · rw [h]; exact hrow
        · exact hall r h

theorem delivered_subset (nextFail : Option Nat) (rows : List Row) :
    ∀ row ∈ delivered nextFail rows, row ∈ rows := by
  intro row h
  cases nextFail with
  | none => exact h
  | some n => exact List.mem_of_mem_take h

theorem listReports_noFault (db : DB) (user : String) :
    listReports db user noFault = .ok ((selectRows db user).map scanRow) := by
  unfold listReports noFault delivered
  rcases scanLoop_spec (fun _ => none) (selectRows db user) [] with ⟨_, _, _, h, _⟩ | ⟨_, h⟩
  · cases h
  · simpa using h

theorem listReports_ok_eq (db : DB) (user : String) (env : GetEnv) (reports : List ReportMap)
    (h : listReports db user env = .ok reports) :
    reports = (delivered env.nextFail (selectRows db user)).map scanRow := by
  unfold listReports at h
  cases hq : env.queryErr with
  | some err => rw [hq] at h; cases h
  | none =>
    rw [hq] at h
    rcases scanLoop_spec env.scanErr (delivered env.nextFail (selectRows db user)) [] with
      ⟨_, _, _, _, h2⟩ | ⟨_, h2⟩
    · rw [h2] at h; cases h
    · rw [h2] at h
      simpa using (Except.ok.inj h).symm

theorem listReports_congr (db1 db2 : DB) (user : String) (env : GetEnv)
    (h : selectRows db1 user = selectRows db2 user) :
    listReports db1 user env = listReports db2 user env := by
  unfold listReports
  rw [h]

theorem getReport_congr (db1 db2 : DB) (user : String) (env : GetEnv)
    (h : selectRows db1 user = selectRows db2 user) :
    getReport db1 user env = getReport db2 user env := by
  unfold getReport
  rw [listReports_congr db1 db2 user env h]

theorem getReport_cases (db : DB) (user : String) (env : GetEnv) :
    (∃ err, env.queryErr = some err ∧ getReport db user env = .json 500 err) ∨
    (env.queryErr = none ∧ ∃ row ∈ delivered env.nextFail (selectRows db user), ∃ err, env.scanErr row = some err ∧
        getReport db user env = .json 500 err) ∨
    (env.queryErr = none ∧ (∀ row ∈ delivered env.nextFail (selectRows db user), env.scanErr row = none) ∧
        delivered env.nextFail (selectRows db user) = [] ∧
        getReport db user env = .string 404 ("No reports found for user " ++ user)) ∨
    (env.queryErr = none ∧ (∀ row ∈ delivered env.nextFail (selectRows db user), env.scanErr row = none) ∧
        delivered env.nextFail (selectRows db user) ≠ [] ∧
        getReport db user env =
          .data 200 "text/html; charset=utf-8" (renderHtml user ((delivered env.nextFail (selectRows db user)).map scanRow))) := by
  cases hq : env.queryErr with
  | some err =>
    left
    exact ⟨err, rfl, by simp [getReport, listReports, hq]⟩
  | none =>
    right
    rcases scanLoop_spec env.scanErr (delivered env.nextFail (selectRows db user)) [] with
      ⟨row, hrow, err, herr, hloop⟩ | ⟨hall, hloop⟩
    · left
      exact ⟨rfl, row, hrow, err, herr, by simp [getReport, listReports, hq, hloop]⟩
    · right
      by_cases hempty : delivered env.nextFail (selectRows db user) = []
      · left
        refine ⟨rfl, hall, hempty, ?_⟩
        simp [getReport, listReports, hq, hempty, scanLoop]
      · right
        refine ⟨rfl, hall, hempty, ?_⟩
        simp [getReport, listReports, hq, hloop, hempty]

theorem selectRows_eq_nil_iff (db : DB) (user : String) :
    selectRows db user = [] ↔ ∀ row ∈ db.rows, row.user ≠ user := by
  unfold selectRows
  rw [List.filter_eq_nil_iff]
  simp

theorem selectRows_insertReport (db : DB) (report : Report) (result user : String) :
    selectRows (insertReport db report result) user =
      selectRows db user ++
        (if report.User = user then [rowOf (nextId db) report result] else []) := by
  unfold selectRows insertReport
  rw [List.filter_append]
  by_cases h : report.User = user
  · simp [h, rowOf]
  · simp [h, rowOf]

theorem le_maxId (rows : List Row) : ∀ row ∈ rows, row.id ≤ maxId rows := by
  induction rows with
  | nil => intro row h; cases h
  | cons r rs ih =>
    intro row h
    simp only [maxId, List.foldr_cons]
    rcases List.mem_cons.mp h with h | h
    · rw [h]; exact Nat.le_max_left _ _
    · exact Nat.le_trans (ih row h) (Nat.le_max_right _ _)

theorem lt_nextId (db : DB) (row : Row) (h : row ∈ db.rows) : row.id < nextId db := by
  have h1 := le_maxId db.rows row h
  have h2 : maxId db.rows ≤ max db.seq (maxId db.rows) := Nat.le_max_right _ _
  unfold nextId
  omega

/-- Rows in strictly ascending id order, the order of a table scan. -/
theorem insertReport_ascending (db : DB) (report : Report) (result : String)
    (h : db.rows.Pairwise (fun a b => a.id < b.id)) :
    (insertReport db report result).rows.Pairwise (fun a b => a.id < b.id) := by
  unfold insertReport
  rw [List.pairwise_append]
  refine ⟨h, List.pairwise_singleton _ _, ?_⟩
  intro a ha b hb
  rw [List.mem_singleton.mp hb]
  exact lt_nextId db a ha

theorem postReport_success (db : DB) (env : PostEnv) (report : Report)
    (hb : env.bind = .ok report) (hp : env.prepareErr = none) (he : env.execErr = none) :
    postReport db env =
      { db := insertReport db report (result report), printed := [totalOK report],
        response := .string 200 "Report saved successfully!" } := by
  unfold postReport
  rw [hb, hp, he]
  rfl

theorem postReport_db_cases (db : DB) (env : PostEnv) :
    (postReport db env).db = db ∨
    ∃ report, env.bind = .ok report ∧ env.prepareErr = none ∧ env.execErr = none ∧
      (postReport db env).db = insertReport db report (result report) := by
  cases hb : env.bind with
  | error err => left; simp [postReport, hb]
  | ok report =>
    cases hp : env.prepareErr with
    | some err => left; simp [postReport, hb, hp]
    | none =>
      cases he : env.execErr with
      | some err => left; simp [postReport, hb, hp, he]
      | none =>
        right
        exact ⟨report, rfl, rfl, rfl, by rw [postReport_success db env report hb hp he]⟩

theorem postReport_other_user (db : DB) (env : PostEnv) (report : Report) (user : String)
    (hb : env.bind = .ok report) (hu : report.User ≠ user) :
    selectRows (postReport db env).db user = selectRows db user := by
  rcases postReport_db_cases db env with h | ⟨r, hr, _, _, h⟩
  · rw [h]
  · rw [hb] at hr
    cases hr
    rw [h, selectRows_insertReport]
    simp [hu]

theorem submitAll_cons (db : DB) (env : PostEnv) (envs : List PostEnv) :
    submitAll db (env :: envs) = submitAll (postReport db env).db envs := rfl

theorem submitAll_rows_origin (envs : List PostEnv) :
    ∀ (db : DB) (row : Row), row ∈ (submitAll db envs).rows →
      row ∈ db.rows ∨
      ∃ env ∈ envs, ∃ report id, env.bind = .ok report ∧
        row = rowOf id report (result report) := by
  induction envs with
  | nil => intro db row h; exact Or.inl h
  | cons env envs ih =>
    intro db row h
    rw [submitAll_cons] at h
    rcases ih _ row h with h1 | ⟨e, he, report, id, hb, hrow⟩
    · rcases postReport_db_cases db env with hdb | ⟨report, hb, _, _, hdb⟩
      · rw [hdb] at h1; exact Or.inl h1
      · rw [hdb] at h1
        unfold insertReport at h1
        rcases List.mem_append.mp h1 with h2 | h2
        · exact Or.inl h2
        · right
          exact ⟨env, List.mem_cons_self _ _, report, nextId db, hb, List.mem_singleton.mp h2⟩
    · right
      exact ⟨e, List.mem_cons_of_mem _ he, report, id, hb, hrow⟩

theorem submitAll_ascending (envs : List PostEnv) :
    ∀ db : DB, db.rows.Pairwise (fun a b => a.id < b.id) →
      (submitAll db envs).rows.Pairwise (fun a b => a.id < b.id) := by
  induction envs with
  | nil => intro db h; exact h
  | cons env envs ih =>
    intro db h
    rw [submitAll_cons]
    apply ih
    rcases postReport_db_cases db env with hdb | ⟨report, _, _, _, hdb⟩
    · rw [hdb]; exact h
    · rw [hdb]; exact insertReport_ascending db report _ h

theorem submitAll_okPost_select (user : String) (reports : List Report) :
    (∀ report ∈ reports, report.User = user) →
    ∀ db : DB, (selectRows (submitAll db (reports.map okPost)) user).map scanRow =
      (selectRows db user).map scanRow ++
        reports.map (fun report => echoOf report (result report)) := by
  induction reports with
  | nil => intro _ db; simp [submitAll]
  | cons report rest ih =>
    intro h db
    have hu : report.User = user := h report (List.mem_cons_self _ _)
    have hrest : ∀ r ∈ rest, r.User = user := fun r hr => h r (List.mem_cons_of_mem _ hr)
    rw [List.map_cons, submitAll_cons, ih hrest,
      postReport_success db (okPost report) report rfl rfl rfl]
    simp [selectRows_insertReport, hu, scanRow_rowOf]

/-- C3: after a successful submit of a report, the listing for its user is the
listing before followed by one map that holds the submitted project, three
ratings, bugs, code smells, critical violations and uncovered lines and the
verdict computed at submission; and the result of every listed map is the
stored result of its row, whatever that is. -/
theorem C3_round_trip (db : DB) (env : PostEnv) (report : Report)
    (hb : env.bind = .ok report) (hp : env.prepareErr = none) (he : env.execErr = none) :
    (postReport db env).response = .string 200 "Report saved successfully!" ∧
    listReports (postReport db env).db report.User noFault =
      .ok ((selectRows db report.User).map scanRow ++ [echoOf report (result report)]) ∧
    getReport (postReport db env).db report.User noFault =
      .data 200 "text/html; charset=utf-8"
        (renderHtml report.User
          ((selectRows db report.User).map scanRow ++ [echoOf report (result report)])) ∧
    (∀ (stored : DB) (user : String) (reports : List ReportMap),
      listReports stored user noFault = .ok reports →
      reports.map (fun m => m.result) = (selectRows stored user).map (fun row => row.result)) := by
  have hsel : (selectRows (postReport db env).db report.User).map scanRow =
      (selectRows db report.User).map scanRow ++ [echoOf report (result report)] := by
    rw [postReport_success db env report hb hp he]
    simp [selectRows_insertReport, scanRow_rowOf]
  refine ⟨?_, ?_, ?_, ?_⟩
  · rw [postReport_success db env report hb hp he]
  · rw [listReports_noFault, hsel]
  · unfold getReport
    rw [listReports_noFault, hsel]
    simp
  · intro stored user reports h
    rw [listReports_ok_eq stored user noFault reports h, List.map_map]
    rfl

theorem C3_round_trip_witness :
    listReports (postReport (submitAll emptyDB [okPost bobReport]) (okPost aliceReport)).db
        aliceReport.User noFault =
      .ok ((selectRows (submitAll emptyDB [okPost bobReport]) aliceReport.User).map scanRow ++
        [echoOf aliceReport (result aliceReport)]) :=
  (C3_round_trip (submitAll emptyDB [okPost bobReport]) (okPost aliceReport) aliceReport
    rfl rfl rfl).2.1

/-- C4: after reports of one user are submitted successfully one after another,
the listing for that user is the listing before followed by the maps of those
reports in the order of submission. -/
theorem C4_insertion_order (db : DB) (user : String) (reports : List Report)
    (h : ∀ report ∈ reports, report.User = user) :
    listReports (submitAll db (reports.map okPost)) user noFault =
      .ok ((selectRows db user).map scanRow ++
        reports.map (fun report => echoOf report (result report))) := by
  rw [listReports_noFault, submitAll_okPost_select user reports h db]

theorem C4_insertion_order_witness :
    listReports
        (submitAll (submitAll emptyDB [okPost bobReport, okPost aliceReport])
          ([uniformReport "alice" "p2" "WARN" "9", aliceReport,
            uniformReport "alice" "p3" "x.OK" ""].map okPost))
        "alice" noFault =
      .ok ((selectRows (submitAll emptyDB [okPost bobReport, okPost aliceReport]) "alice").map
          scanRow ++
        [uniformReport "alice" "p2" "WARN" "9", aliceReport,
          uniformReport "alice" "p3" "x.OK" ""].map
          (fun report => echoOf report (result report))) :=
  C4_insertion_order (submitAll emptyDB [okPost bobReport, okPost aliceReport]) "alice"
    [uniformReport "alice" "p2" "WARN" "9", aliceReport, uniformReport "alice" "p3" "x.OK" ""]
    (by decide)

/-- C5: a submit under user A leaves the rows selected for another user B, and
so the listing and the response for B, as they were; and in a table built
from the empty one by submits, every map listed for B holds the fields and
verdict of a report that was bound with user B. -/
theorem C5_isolation (db : DB) (A B : String) (env : PostEnv) (report : Report)
    (hAB : A ≠ B) (hb : env.bind = .ok report) (hu : report.User = A) :
    selectRows (postReport db env).db B = selectRows db B ∧
    (∀ genv : GetEnv,
      listReports (postReport db env).db B genv = listReports db B genv ∧
      getReport (postReport db env).db B genv = getReport db B genv) ∧
    (∀ (envs : List PostEnv) (genv : GetEnv) (reports : List ReportMap),
      listReports (submitAll emptyDB envs) B genv = .ok reports →
      ∀ m ∈ reports, ∃ env' ∈ envs, ∃ r, env'.bind = .ok r ∧ r.User = B ∧
        m = echoOf r (result r)) := by
  have hne : report.User ≠ B := by rw [hu]; exact hAB
  have hsel := postReport_other_user db env report B hb hne
  refine ⟨hsel, ?_, ?_⟩
  · intro genv
    exact ⟨listReports_congr _ _ B genv hsel, getReport_congr _ _ B genv hsel⟩
  · intro envs genv reports hl m hm
    rw [listReports_ok_eq _ B genv reports hl] at hm
    rcases List.mem_map.mp hm with ⟨row, hdel, hscan⟩
    have hrow := delivered_subset genv.nextFail _ row hdel
    unfold selectRows at hrow
    rcases List.mem_filter.mp hrow with ⟨hmem, huser⟩
    rcases submitAll_rows_origin envs emptyDB row hmem with h0 | ⟨e, he, r, id, hbind, hrowOf⟩
    · cases h0
    · refine ⟨e, he, r, hbind, ?_, ?_⟩
      · have : row.user = B := by simpa using huser
        rw [hrowOf] at this
        exact this
      · rw [← hscan, hrowOf, scanRow_rowOf]

theorem C5_isolation_witness :
    selectRows (postReport (submitAll emptyDB [okPost bobReport]) (okPost aliceReport)).db "bob" =
      selectRows (submitAll emptyDB [okPost bobReport]) "bob" :=
  (C5_isolation (submitAll emptyDB [okPost bobReport]) "alice" "bob" (okPost aliceReport)
    aliceReport (by decide) rfl rfl).1

theorem getReport_outcomes (db : DB) (user : String) (env : GetEnv)
    (hn : env.nextFail = none) :
    ((getReport db user env).status = 404 ↔
      env.queryErr = none ∧ ∀ row ∈ db.rows, row.user ≠ user) ∧
    ((getReport db user env).status = 404 →
      getReport db user env = .string 404 ("No reports found for user " ++ user)) ∧
    ((getReport db user env).status = 500 ↔
      env.queryErr ≠ none ∨ ∃ row ∈ selectRows db user, env.scanErr row ≠ none) ∧
    (env.queryErr = none → (∀ row ∈ selectRows db user, env.scanErr row = none) →
      (∃ row ∈ db.rows, row.user = user) →
      getReport db user env =
        .data 200 "text/html; charset=utf-8"
          (renderHtml user ((selectRows db user).map scanRow))) := by
  have hnil := selectRows_eq_nil_iff db user
  have hcases := getReport_cases db user env
  have hd : delivered env.nextFail (selectRows db user) = selectRows db user := by
    rw [hn]; rfl
  rw [hd] at hcases
  rcases hcases with
    ⟨err, hq, hr⟩ | ⟨hq, row, hrow, err, herr, hr⟩ | ⟨hq, hall, hempty, hr⟩ |
    ⟨hq, hall, hne, hr⟩
  · refine ⟨?_, ?_, ?_, ?_⟩
    · rw [hr]; simp [Response.status, hq]
    · rw [hr]; simp [Response.status]
    · rw [hr]; simp [Response.status, hq]
    · intro h; rw [hq] at h; cases h
  · have hsome : env.scanErr row ≠ none := by rw [herr]; simp
    refine ⟨?_, ?_, ?_, ?_⟩
    · rw [hr, ← hnil]
      simp only [Response.status]
      constructor
      · intro h; exact absurd h (by decide)
      · intro h; rw [h.2] at hrow; cases hrow
    · rw [hr]; simp [Response.status]
    · rw [hr]
      simp only [Response.status, true_iff]
      exact Or.inr ⟨row, hrow, hsome⟩
    · intro _ h2 _
      exact absurd (h2 row hrow) hsome
  · refine ⟨?_, ?_, ?_, ?_⟩
    · rw [hr, ← hnil]; simp [Response.status, hq, hempty]
    · intro _; exact hr
    · rw [hr]
      simp only [Response.status]
      constructor
      · intro h; exact absurd h (by decide)
      · rintro (h | ⟨row, hrow, _⟩)
        · exact absurd hq h
        · rw [hempty] at hrow; cases hrow
    · rintro _ _ ⟨row, hrow, huser⟩
      exact absurd huser (hnil.mp hempty row hrow)
  · refine ⟨?_, ?_, ?_, ?_⟩
    · rw [hr, ← hnil]
      simp only [Response.status]
      constructor
      · intro h; exact absurd h (by decide)
      · intro h; exact absurd h.2 hne
    · rw [hr]; simp [Response.status]
    · rw [hr]
      simp only [Response.status]
      constructor
      · intro h; exact absurd h (by decide)
      · rintro (h | ⟨row, hrow, hs⟩)
        · exact absurd hq h
        · exact absurd (hall row hrow) hs
    · intro _ _ _; exact hr

/-- C6, the code at the failing input: the table holds a row of user "alice",
`db.Query` succeeds and the first `rows.Next()` stops on an error; the handler
answers 404 "No reports found for user alice", not 500. -/
theorem C6_iteration_error_answers_404 :
    (∃ row ∈ (submitAll emptyDB [okPost aliceReport]).rows, row.user = "alice") ∧
    firstNextFails.queryErr = none ∧
    getReport (submitAll emptyDB [okPost aliceReport]) "alice" firstNextFails =
      .string 404 "No reports found for user alice" ∧
    getReport (submitAll emptyDB [okPost aliceReport]) "alice" noFault =
      .data 200 "text/html; charset=utf-8"
        (renderHtml "alice" [echoOf aliceReport (result aliceReport)]) := by
  refine ⟨⟨rowOf 1 aliceReport "FAIL", by decide, by decide⟩, rfl, by decide, rfl⟩

/-- C9: in a table built from the empty one by any sequence of submits, every
row has a result that is "PASS" or "FAIL", and it is the verdict of the
evaluator on the six scored fields the row itself stores. -/
theorem C9_store_invariant (envs : List PostEnv) (row : Row)
    (h : row ∈ (submitAll emptyDB envs).rows) :
    (row.result = "PASS" ∨ row.result = "FAIL") ∧
    row.result = verdict (countOK [row.new_reliability_rating, row.new_security_rating,
      row.new_maintainability_rating, row.bugs, row.code_smells, row.critical_violations]) := by
  rcases submitAll_rows_origin envs emptyDB row h with h0 | ⟨_, _, report, id, _, hrow⟩
  · cases h0
  · have hres : row.result = verdict (countOK [row.new_reliability_rating,
        row.new_security_rating, row.new_maintainability_rating, row.bugs, row.code_smells,
        row.critical_violations]) := by
      rw [hrow]; rfl
    refine ⟨?_, hres⟩
    rw [hres]
    unfold verdict
    split
    · exact Or.inl rfl
    · exact Or.inr rfl

theorem C9_store_invariant_witness :
    ((rowOf 2 aliceReport "FAIL").result = "PASS" ∨ (rowOf 2 aliceReport "FAIL").result = "FAIL") ∧
    (rowOf 2 aliceReport "FAIL").result =
      verdict (countOK [(rowOf 2 aliceReport "FAIL").new_reliability_rating,
        (rowOf 2 aliceReport "FAIL").new_security_rating,
        (rowOf 2 aliceReport "FAIL").new_maintainability_rating,
        (rowOf 2 aliceReport "FAIL").bugs, (rowOf 2 aliceReport "FAIL").code_smells,
        (rowOf 2 aliceReport "FAIL").critical_violations]) :=
  C9_store_invariant [okPost bobReport, okPost aliceReport] (rowOf 2 aliceReport "FAIL")
    (by decide)

end GradingReport
